import Mathlib

/-
Verification of the watermark tool (`watermark_tool.py`): a shallow
embedding of its placement calculator, EXIF-date resolver, file
selection and per-file processing loop, together with theorems about
the behaviours documented in the specification.
-/

namespace WatermarkTool

/-! ## Placement calculator

`calculate_watermark_position` is a direct translation of the Python
method of the same name.  Python integers are modelled by `Int`; the
Python floor division `//` is `Int.fdiv`. -/

def calculate_watermark_position (img_width img_height text_width text_height : Int)
    (position : String) : Int × Int :=
  let margin : Int := 20
  if position = "top-left" then
    (margin, margin)
  else if position = "top-right" then
    (img_width - text_width - margin, margin)
  else if position = "bottom-left" then
    (margin, img_height - text_height - margin)
  else if position = "bottom-right" then
    (img_width - text_width - margin, img_height - text_height - margin)
  else if position = "center" then
    ((img_width - text_width).fdiv 2, (img_height - text_height).fdiv 2)
  else
    (margin, img_height - text_height - margin)

/-- C3: with margin fixed at 20, the placement calculator returns the five
documented coordinate pairs for the five anchors, for all non-negative
canvas and text dimensions; in particular the bottom-right placement for
W=1000, H=800, w=120, h=30 is (860, 750). -/
theorem C3_placement_formulas (W H w h : Nat) :
    calculate_watermark_position W H w h "top-left" = (20, 20) ∧
    calculate_watermark_position W H w h "top-right" = ((W : Int) - w - 20, 20) ∧
    calculate_watermark_position W H w h "bottom-left" = (20, (H : Int) - h - 20) ∧
    calculate_watermark_position W H w h "bottom-right" =
      ((W : Int) - w - 20, (H : Int) - h - 20) ∧
    calculate_watermark_position W H w h "center" =
      (((W : Int) - w).fdiv 2, ((H : Int) - h).fdiv 2) ∧
    calculate_watermark_position 1000 800 120 30 "bottom-right" = (860, 750) := by
  refine ⟨rfl, ?_, rfl, ?_, ?_, by decide⟩ <;> simp [calculate_watermark_position]

/-- C4: for any anchor string outside the five recognized ones, the placement
calculator returns exactly the bottom-left result for the same dimensions. -/
theorem C4_unrecognized_anchor_defaults_bottom_left
    (W H w h : Int) (position : String)
    (h1 : position ≠ "top-left") (h2 : position ≠ "top-right")
    (h3 : position ≠ "bottom-left") (h4 : position ≠ "bottom-right")
    (h5 : position ≠ "center") :
    calculate_watermark_position W H w h position =
      calculate_watermark_position W H w h "bottom-left" := by
  simp [calculate_watermark_position, h1, h2, h3, h4, h5]

/-- Witness for C4 at the concrete anchor string "middle". -/
theorem C4_unrecognized_anchor_defaults_bottom_left_witness :
    calculate_watermark_position 100 50 10 5 "middle" =
      calculate_watermark_position 100 50 10 5 "bottom-left" :=
  C4_unrecognized_anchor_defaults_bottom_left 100 50 10 5 "middle"
    (by decide) (by decide) (by decide) (by decide) (by decide)

/-- C5: no bounds clamping: there are non-negative dimensions with
w + 2*margin > W for which the right-hand anchors return the unmodified,
negative x-coordinate W - w - margin. -/
theorem C5_no_bounds_clamping :
    ∃ W H w h : Nat, w + 2 * 20 > W ∧
      (calculate_watermark_position W H w h "top-right").1 = (W : Int) - w - 20 ∧
      (calculate_watermark_position W H w h "top-right").1 < 0 ∧
      (calculate_watermark_position W H w h "bottom-right").1 < 0 := by
  exact ⟨10, 100, 0, 0, by decide, by decide, by decide, by decide⟩

/-! ## Date resolver

`get_exif_date` in the Python source opens the image, scans the EXIF
dictionary for the tag named `DateTime`, parses its value with
`datetime.strptime(value, "%Y:%m:%d %H:%M:%S")` and reformats it with
`strftime("%Y-%m-%d")`.  Any exception in that block (unreadable file,
missing metadata, unparseable value) falls through to the file
modification time; if that also fails it falls back to the current date.

The filesystem and the image library are modelled by an `ImageWorld`
record giving, for one image path, the outcome of reading its EXIF data,
the outcome of `os.path.getmtime`, the local-timezone civil-date
conversion used by `datetime.fromtimestamp`, and the current date. -/

/-- A calendar date as held by a Python `datetime` object (only the
fields used by `strftime("%Y-%m-%d")`). -/
structure Date where
  year : Nat
  month : Nat
  day : Nat
deriving DecidableEq

/-- The ASCII digit character for `n % 10`. -/
def digitChar (n : Nat) : Char := Char.ofNat (48 + n % 10)

/-- Embedding of `strftime("%Y-%m-%d")` for dates in `datetime`'s valid
range (year at most 9999): four zero-padded year digits, a dash, two
zero-padded month digits, a dash, two zero-padded day digits. -/
def formatDate (d : Date) : String :=
  String.mk [digitChar (d.year / 1000), digitChar (d.year / 100),
    digitChar (d.year / 10), digitChar d.year, '-',
    digitChar (d.month / 10), digitChar d.month, '-',
    digitChar (d.day / 10), digitChar d.day]

/-- Read exactly `n` ASCII digits from the front of `cs`, returning their
value and the remaining characters. -/
def readFixed : Nat → List Char → Option (Nat × List Char)
  | 0, cs => some (0, cs)
  | _ + 1, [] => none
  | n + 1, c :: cs =>
    if c.isDigit then
      match readFixed n cs with
      | some (v, rest) => some ((c.toNat - 48) * 10 ^ n + v, rest)
      | none => none
    else none

/-- Consume one expected literal character. -/
def expectChar (c : Char) : List Char → Option (List Char)
  | [] => none
  | x :: xs => if x = c then some xs else none

def leapYear (y : Nat) : Bool :=
  (y % 4 == 0 && y % 100 != 0) || (y % 400 == 0)

def daysInMonth (y m : Nat) : Nat :=
  if m = 2 then (if leapYear y then 29 else 28)
  else if m = 4 ∨ m = 6 ∨ m = 9 ∨ m = 11 then 30
  else 31

/-- Embedding of `datetime.strptime(s, "%Y:%m:%d %H:%M:%S")`, restricted
to the zero-padded shape named by the source comment
(`EXIF date format: "YYYY:MM:DD HH:MM:SS"`): four year digits and two
digits for each other field, with the range checks `datetime` performs.
`none` models the `ValueError` exception. -/
def strptimeExifDate (s : String) : Option Date := do
  let cs := s.data
  let (y, cs) ← readFixed 4 cs
  let cs ← expectChar ':' cs
  let (mo, cs) ← readFixed 2 cs
  let cs ← expectChar ':' cs
  let (d, cs) ← readFixed 2 cs
  let cs ← expectChar ' ' cs
  let (hh, cs) ← readFixed 2 cs
  let cs ← expectChar ':' cs
  let (mi, cs) ← readFixed 2 cs
  let cs ← expectChar ':' cs
  let (ss, cs) ← readFixed 2 cs
  if cs = [] ∧ 1 ≤ y ∧ 1 ≤ mo ∧ mo ≤ 12 ∧ 1 ≤ d ∧ d ≤ daysInMonth y mo ∧
      hh ≤ 23 ∧ mi ≤ 59 ∧ ss ≤ 59 then
    some ⟨y, mo, d⟩
  else
    none

/-- Outcome of `Image.open(path)._getexif()` for one image: the open or
the read raised, or it returned `None` (no metadata), or it returned a
dictionary, given as its items in iteration order with tag ids already
resolved through `ExifTags.TAGS`. -/
inductive ExifData where
  | readError : ExifData
  | noData : ExifData
  | data : List (String × String) → ExifData
deriving DecidableEq

/-- The `for tag, value in exif_data.items()` loop of `get_exif_date`:
`Except.error ()` models the `ValueError` that `strptime` raises on the
first `DateTime` entry when its value does not parse, `Except.ok none`
the loop running off the end without a `return`. -/
def exifLoop : List (String × String) → Except Unit (Option String)
  | [] => Except.ok none
  | (tag_name, value) :: rest =>
    if tag_name = "DateTime" then
      match strptimeExifDate value with
      | some d => Except.ok (some (formatDate d))
      | none => Except.error ()
    else
      exifLoop rest

/-- The environment `get_exif_date` sees for one image path. -/
structure ImageWorld where
  exif : ExifData
  /-- `os.path.getmtime`: `none` models any exception in the
  `getmtime`/`fromtimestamp` path, `some t` the epoch timestamp. -/
  mtime : Option Int
  /-- `datetime.fromtimestamp` under the local timezone. -/
  localDate : Int → Date
  /-- the date part of `datetime.now()`. -/
  today : Date

/-- Direct translation of `get_exif_date`: try the EXIF scan, on a
returned date use it; otherwise (exception or fall-through) try the file
modification time; otherwise use the current date. -/
def get_exif_date (w : ImageWorld) : String :=
  let tryExif : Except Unit (Option String) :=
    match w.exif with
    | ExifData.readError => Except.error ()
    | ExifData.noData => Except.ok none
    | ExifData.data entries => exifLoop entries
  match tryExif with
  | Except.ok (some s) => s
  | _ =>
    match w.mtime with
    | some t => formatDate (w.localDate t)
    | none => formatDate w.today

/-- First value stored under the tag name `DateTime`. -/
def findDateTime : List (String × String) → Option String
  | [] => none
  | (n, v) :: rest => if n = "DateTime" then some v else findDateTime rest

/-- Modelled from the spec: step 1 of the fallback chain, "attempt to
read embedded capture-time metadata; if present and parseable against
the pattern YYYY:MM:DD HH:MM:SS, extract and reformat the date
portion". -/
def specAttemptExif (w : ImageWorld) : Option String :=
  match w.exif with
  | ExifData.data entries =>
    match findDateTime entries with
    | some v => (strptimeExifDate v).map formatDate
    | none => none
  | _ => none

/-- Modelled from the spec: step 2 of the fallback chain, "fall back to
the file's last-modified timestamp, converted to local date". -/
def specAttemptMtime (w : ImageWorld) : Option String :=
  w.mtime.map (fun t => formatDate (w.localDate t))

/-- Modelled from the spec: the prioritized fallback chain — an ordered
sequence of attempt functions, the first non-empty result wins, with the
current system date as final fallback. -/
def specDateResolver (w : ImageWorld) : String :=
  ((specAttemptExif w).orElse (fun _ => specAttemptMtime w)).getD (formatDate w.today)

/-- Does the string have the shape `YYYY-MM-DD` (four digits, dash, two
digits, dash, two digits)? -/
def isDateFormat (s : String) : Bool :=
  match s.data with
  | [y1, y2, y3, y4, d1, m1, m2, d2, a1, a2] =>
    y1.isDigit && y2.isDigit && y3.isDigit && y4.isDigit && d1 == '-' &&
      m1.isDigit && m2.isDigit && d2 == '-' && a1.isDigit && a2.isDigit
  | _ => false

example : strptimeExifDate "2023:05:17 10:00:00" = some ⟨2023, 5, 17⟩ := by decide
example : strptimeExifDate "2023:13:17 10:00:00" = none := by decide
example : strptimeExifDate "2023:02:29 10:00:00" = none := by decide
example : strptimeExifDate "2024:02:29 10:00:00" = some ⟨2024, 2, 29⟩ := by decide
example : strptimeExifDate "2023:05:17" = none := by decide
example : formatDate ⟨2023, 5, 17⟩ = "2023-05-17" := by decide
example : isDateFormat "2023-05-17" = true := by decide

/-! ### Lemmas about the date resolver -/

theorem digitChar_isDigit (n : Nat) : (digitChar n).isDigit = true := by
  show (Char.ofNat (48 + n % 10)).isDigit = true
  have h : n % 10 < 10 := Nat.mod_lt _ (by norm_num)
  revert h
  generalize n % 10 = m
  intro h
  interval_cases m <;> decide

theorem isDateFormat_formatDate (d : Date) : isDateFormat (formatDate d) = true := by
  obtain ⟨y, mo, dy⟩ := d
  simp [formatDate, isDateFormat, digitChar_isDigit]

/-- The EXIF scan loop is determined by the first `DateTime` entry. -/
theorem exifLoop_eq (es : List (String × String)) :
    exifLoop es =
      match findDateTime es with
      | none => Except.ok none
      | some v =>
        match strptimeExifDate v with
        | some d => Except.ok (some (formatDate d))
        | none => Except.error () := by
  induction es with
  | nil => rfl
  | cons p rest ih =>
    obtain ⟨n, v⟩ := p
    by_cases hn : n = "DateTime"
    · simp [exifLoop, findDateTime, hn]
    · simp [exifLoop, findDateTime, hn, ih]

/-- The loop's outcome once the first `DateTime` value is known. -/
theorem exifLoop_of_find_some (es : List (String × String)) (v : String)
    (hf : findDateTime es = some v) :
    exifLoop es =
      match strptimeExifDate v with
      | some d => Except.ok (some (formatDate d))
      | none => Except.error () := by
  have h0 := exifLoop_eq es
  rw [hf] at h0
  exact h0

/-- Every branch of the resolver returns some formatted date. -/
theorem get_exif_date_formatDate (w : ImageWorld) :
    ∃ d, get_exif_date w = formatDate d := by
  obtain ⟨exif, mtime, lc, today⟩ := w
  cases exif with
  | readError =>
    cases mtime with
    | none => exact ⟨today, rfl⟩
    | some t => exact ⟨lc t, rfl⟩
  | noData =>
    cases mtime with
    | none => exact ⟨today, rfl⟩
    | some t => exact ⟨lc t, rfl⟩
  | data es =>
    cases hf : findDateTime es with
    | none =>
      have h : exifLoop es = Except.ok none := by rw [exifLoop_eq es, hf]
      cases mtime with
      | none => exact ⟨today, by simp [get_exif_date, h]⟩
      | some t => exact ⟨lc t, by simp [get_exif_date, h]⟩
    | some v =>
      have hl := exifLoop_of_find_some es v hf
      cases hp : strptimeExifDate v with
      | none =>
        rw [hp] at hl
        cases mtime with
        | none => exact ⟨today, by simp [get_exif_date, hl]⟩
        | some t => exact ⟨lc t, by simp [get_exif_date, hl]⟩
      | some d =>
        rw [hp] at hl
        exact ⟨d, by simp [get_exif_date, hl]⟩

theorem findDateTime_eq_none (es : List (String × String))
    (h : ∀ p ∈ es, p.1 ≠ "DateTime") : findDateTime es = none := by
  induction es with
  | nil => rfl
  | cons p rest ih =>
    obtain ⟨n, v⟩ := p
    have hn : n ≠ "DateTime" := h (n, v) (List.mem_cons_self _ _)
    simp only [findDateTime, if_neg hn]
    exact ih fun q hq => h q (List.mem_cons_of_mem _ hq)

theorem findDateTime_append (pre rest : List (String × String)) (v : String)
    (h : ∀ p ∈ pre, p.1 ≠ "DateTime") :
    findDateTime (pre ++ ("DateTime", v) :: rest) = some v := by
  induction pre with
  | nil => simp [findDateTime]
  | cons p pre0 ih =>
    obtain ⟨n, u⟩ := p
    have hn : n ≠ "DateTime" := h (n, u) (List.mem_cons_self _ _)
    simp only [List.cons_append, findDateTime, if_neg hn]
    exact ih fun q hq => h q (List.mem_cons_of_mem _ hq)

/-- C1: the date resolver is the prioritized fallback chain the spec
describes: EXIF capture time first, then file modification time, then
the current date — the first step to succeed determines the result. -/
theorem C1_date_resolver_fallback_chain (w : ImageWorld) :
    get_exif_date w = specDateResolver w := by
  obtain ⟨exif, mtime, lc, today⟩ := w
  cases exif with
  | readError =>
    cases mtime <;>
      simp [get_exif_date, specDateResolver, specAttemptExif, specAttemptMtime,
        Option.orElse]
  | noData =>
    cases mtime <;>
      simp [get_exif_date, specDateResolver, specAttemptExif, specAttemptMtime,
        Option.orElse]
  | data es =>
    cases hf : findDateTime es with
    | none =>
      have h : exifLoop es = Except.ok none := by rw [exifLoop_eq es, hf]
      cases mtime <;>
        simp [get_exif_date, h, specDateResolver, specAttemptExif, hf,
          specAttemptMtime, Option.orElse]
    | some v =>
      have hl := exifLoop_of_find_some es v hf
      cases hp : strptimeExifDate v with
      | none =>
        rw [hp] at hl
        cases mtime <;>
          simp [get_exif_date, hl, specDateResolver, specAttemptExif, hf, hp,
            specAttemptMtime, Option.orElse]
      | some d =>
        rw [hp] at hl
        simp [get_exif_date, hl, specDateResolver, specAttemptExif, hf, hp,
          Option.orElse]

/-- C2: the date resolver is total over every modelled environment —
unreadable files included — and always returns a string of the shape
YYYY-MM-DD; no exception reaches the caller. -/
theorem C2_date_resolver_never_fails (w : ImageWorld) :
    isDateFormat (get_exif_date w) = true := by
  obtain ⟨d, hd⟩ := get_exif_date_formatDate w
  rw [hd]
  exact isDateFormat_formatDate d

/-- C6: concrete cases — a `DateTime` value "2023:05:17 10:00:00" yields
"2023-05-17" whatever the rest of the environment; with no metadata and a
known modification time the resolver returns that time's local calendar
date formatted YYYY-MM-DD. -/
theorem C6_concrete_cases (mt : Option Int) (lc : Int → Date) (nd : Date) (t : Int) :
    get_exif_date ⟨ExifData.data [("DateTime", "2023:05:17 10:00:00")], mt, lc, nd⟩ =
      "2023-05-17" ∧
    get_exif_date ⟨ExifData.noData, some t, lc, nd⟩ = formatDate (lc t) :=
  ⟨rfl, rfl⟩

/-- C9: the EXIF step reads only the tag named `DateTime` and is decided
by the first such entry: if no entry is named `DateTime` the loop
returns nothing and the resolver falls through to the modification-time
fallback without raising, and if one is, the loop's outcome is a
function of that first entry's value alone. -/
theorem C9_only_first_DateTime_tag (entries : List (String × String))
    (t : Int) (lc : Int → Date) (nd : Date) :
    ((∀ p ∈ entries, p.1 ≠ "DateTime") →
      exifLoop entries = Except.ok none ∧
      get_exif_date ⟨ExifData.data entries, some t, lc, nd⟩ = formatDate (lc t)) ∧
    (∀ pre v rest, entries = pre ++ ("DateTime", v) :: rest →
      (∀ p ∈ pre, p.1 ≠ "DateTime") →
      exifLoop entries =
        match strptimeExifDate v with
        | some d => Except.ok (some (formatDate d))
        | none => Except.error ()) := by
  constructor
  · intro h
    have hf := findDateTime_eq_none entries h
    have hl := exifLoop_eq entries
    rw [hf] at hl
    exact ⟨hl, by simp [get_exif_date, hl]⟩
  · intro pre v rest he hpre
    have hf : findDateTime entries = some v := by
      rw [he]
      exact findDateTime_append pre rest v hpre
    have hl := exifLoop_eq entries
    rw [hf] at hl
    exact hl

/-- Witness for C9: a dictionary holding only `DateTimeOriginal` falls
through to the modification time, and with a leading non-`DateTime` tag
the first `DateTime` entry alone decides the outcome. -/
theorem C9_only_first_DateTime_tag_witness :
    (exifLoop [("DateTimeOriginal", "2023:05:17 10:00:00"), ("Make", "Canon")] =
        Except.ok none ∧
      get_exif_date ⟨ExifData.data [("DateTimeOriginal", "2023:05:17 10:00:00"),
          ("Make", "Canon")], some 0, fun _ => ⟨2020, 1, 2⟩, ⟨2021, 3, 4⟩⟩ =
        formatDate ⟨2020, 1, 2⟩) ∧
    exifLoop [("Software", "x"), ("DateTime", "2023:05:17 10:00:00"),
        ("DateTime", "bad")] = Except.ok (some "2023-05-17") := by
  constructor
  · exact (C9_only_first_DateTime_tag
      [("DateTimeOriginal", "2023:05:17 10:00:00"), ("Make", "Canon")]
      0 (fun _ => ⟨2020, 1, 2⟩) ⟨2021, 3, 4⟩).1 (by decide)
  · have h := (C9_only_first_DateTime_tag
      [("Software", "x"), ("DateTime", "2023:05:17 10:00:00"), ("DateTime", "bad")]
      0 (fun _ => ⟨2020, 1, 2⟩) ⟨2021, 3, 4⟩).2
      [("Software", "x")] "2023:05:17 10:00:00" [("DateTime", "bad")] rfl (by decide)
    rw [h]
    rfl

/-! ## File selection

`get_image_files` keeps the directory entries whose lowercased name ends
with one of the supported extensions (`str.endswith` with a tuple is
true when any member matches).  Strings are compared as their character
lists; `Char.toLower` covers the ASCII range Python's `str.lower` maps
for these extensions. -/

def supported_formats : List String := [".jpg", ".jpeg", ".png", ".tiff", ".bmp"]

def strLower (s : String) : String := String.mk (s.data.map Char.toLower)

def strEndsWith (s suffix : String) : Bool := suffix.data.isSuffixOf s.data

def get_image_files (listing : List String) : List String :=
  listing.filter fun filename =>
    supported_formats.any fun ext => strEndsWith (strLower filename) ext

/-- C10: a directory entry is selected exactly when its lowercased name
ends in .jpg, .jpeg, .png, .tiff or .bmp; uppercase names such as
PHOTO.JPG are therefore included. -/
theorem C10_extension_filter_case_insensitive (listing : List String) (f : String) :
    (f ∈ get_image_files listing ↔
      f ∈ listing ∧
        (strEndsWith (strLower f) ".jpg" = true ∨
         strEndsWith (strLower f) ".jpeg" = true ∨
         strEndsWith (strLower f) ".png" = true ∨
         strEndsWith (strLower f) ".tiff" = true ∨
         strEndsWith (strLower f) ".bmp" = true)) ∧
    get_image_files ["PHOTO.JPG", "readme.txt"] = ["PHOTO.JPG"] :=
  ⟨by simp [get_image_files, supported_formats, List.mem_filter, List.any_eq_true,
      or_assoc], by decide⟩

/-! ## Per-file processing

`process_images` lists the images, asks for preferences, creates the
output directory `directory/_watermark`, and then loops: for each image
path it takes the basename, joins it onto the output directory, resolves
the watermark text with `get_exif_date`, and calls `add_watermark`,
counting successes.  `add_watermark` wraps its whole open/draw/save
pipeline in a try/except and returns `False` on any exception, writing
its single output file (the final `img.save`) only on the success path.

The interactive preferences and the image library are abstracted: a
`FileEnv` gives, per image path, the metadata environment seen by
`get_exif_date` and the outcome of the draw/save pipeline. -/

/-- `os.path.basename` for POSIX paths: everything after the last `/`. -/
def basenameAux (acc : List Char) : List Char → List Char
  | [] => acc
  | c :: cs => if c = '/' then basenameAux [] cs else basenameAux (acc ++ [c]) cs

def basename (p : String) : String := String.mk (basenameAux [] p.data)

/-- `os.path.join` for a relative second component. -/
def joinPath (a b : String) : String := a ++ "/" ++ b

/-- Per-image environment of the processing loop. -/
structure FileEnv where
  image : ImageWorld
  /-- outcome of the open/convert/draw/save pipeline inside
  `add_watermark`; `Except.error ()` models any exception in it. -/
  pipeline : Except Unit Unit

/-- `add_watermark`: the surrounding try/except turns any pipeline
exception into a `False` return. -/
def add_watermark (pipeline : Except Unit Unit) : Bool :=
  match pipeline with
  | Except.ok _ => true
  | Except.error _ => false

/-- Result of the processing loop: the success counter, the files the
loop iterated over, and the output paths written by `img.save`. -/
structure ProcResult where
  success_count : Nat
  processed : List String
  written : List String
deriving DecidableEq

/-- The `for image_path in image_files` loop of `process_images`. -/
def processLoop (env : String → FileEnv) (output_dir : String) :
    List String → ProcResult
  | [] => ⟨0, [], []⟩
  | image_path :: rest =>
    let filename := basename image_path
    let output_path := joinPath output_dir filename
    let ok := add_watermark (env image_path).pipeline
    let r := processLoop env output_dir rest
    ⟨(if ok then 1 else 0) + r.success_count,
      image_path :: r.processed,
      (if ok then [output_path] else []) ++ r.written⟩

/-- `process_images` on an already-obtained file list: the output
directory is `directory/_watermark`, then the loop runs. -/
def process_images (env : String → FileEnv) (directory : String)
    (image_files : List String) : ProcResult :=
  processLoop env (joinPath directory "_watermark") image_files

/-! ### Lemmas about paths and the processing loop -/

theorem strData_append (a b : String) : (a ++ b).data = a.data ++ b.data := rfl

theorem basenameAux_append (xs : List Char) : ∀ (ys : List Char) (acc : List Char),
    basenameAux acc (xs ++ ys) = basenameAux (basenameAux acc xs) ys := by
  induction xs with
  | nil => intro ys acc; rfl
  | cons c cs ih =>
    intro ys acc
    by_cases hc : c = '/'
    · simp [basenameAux, hc, ih]
    · simp [basenameAux, hc, ih]

theorem basenameAux_no_slash : ∀ (cs acc : List Char),
    '/' ∉ acc → '/' ∉ basenameAux acc cs := by
  intro cs
  induction cs with
  | nil => intro acc h; exact h
  | cons c cs0 ih =>
    intro acc h
    by_cases hc : c = '/'
    · rw [show basenameAux acc (c :: cs0) = basenameAux [] cs0 from by
        simp [basenameAux, hc]]
      exact ih [] (List.not_mem_nil _)
    · rw [show basenameAux acc (c :: cs0) = basenameAux (acc ++ [c]) cs0 from by
        simp [basenameAux, hc]]
      refine ih (acc ++ [c]) ?_
      intro hm
      rcases List.mem_append.mp hm with hm | hm
      · exact h hm
      · rw [List.mem_singleton] at hm
        exact hc hm.symm

theorem basenameAux_of_no_slash : ∀ (cs acc : List Char),
    '/' ∉ cs → basenameAux acc cs = acc ++ cs := by
  intro cs
  induction cs with
  | nil => intro acc _; simp [basenameAux]
  | cons c cs0 ih =>
    intro acc h
    have hc : ¬c = '/' := fun he => h (by simp [he])
    have h0 : '/' ∉ cs0 := fun hm => h (List.mem_cons_of_mem _ hm)
    rw [show basenameAux acc (c :: cs0) = basenameAux (acc ++ [c]) cs0 from by
      simp [basenameAux, hc]]
    rw [ih (acc ++ [c]) h0]
    simp

/-- Joining a slash-free filename onto any directory and taking the
basename gives the filename back. -/
theorem basename_joinPath_basename (a f : String) :
    basename (joinPath a (basename f)) = basename f := by
  have hdata : (joinPath a (basename f)).data =
      (a.data ++ ['/']) ++ basenameAux [] f.data := by
    simp [joinPath, strData_append, basename]
  have hslash : basenameAux [] (a.data ++ ['/']) = [] := by
    rw [basenameAux_append a.data ['/']]
    rfl
  have hnos : '/' ∉ basenameAux [] f.data :=
    basenameAux_no_slash f.data [] (by simp)
  calc basename (joinPath a (basename f))
      = String.mk (basenameAux [] ((a.data ++ ['/']) ++ basenameAux [] f.data)) := by
        rw [basename, hdata]
    _ = String.mk (basenameAux [] (basenameAux [] f.data)) := by
        rw [basenameAux_append, hslash]
    _ = basename f := by
        rw [basenameAux_of_no_slash _ [] hnos]
        rfl

/-- What one loop iteration prepends is determined by that file's own
environment; the loop always reaches the tail. -/
theorem processLoop_cons (env : String → FileEnv) (od p : String) (rest : List String) :
    processLoop env od (p :: rest) =
      ⟨(if add_watermark (env p).pipeline then 1 else 0) +
          (processLoop env od rest).success_count,
        p :: (processLoop env od rest).processed,
        (if add_watermark (env p).pipeline then [joinPath od (basename p)] else []) ++
          (processLoop env od rest).written⟩ := rfl

/-- Full characterization of the loop by filter/map. -/
theorem processLoop_spec (env : String → FileEnv) (od : String) :
    ∀ files : List String,
      (processLoop env od files).processed = files ∧
      (processLoop env od files).success_count =
        (files.filter fun f => add_watermark (env f).pipeline).length ∧
      (processLoop env od files).written =
        (files.filter fun f => add_watermark (env f).pipeline).map
          fun f => joinPath od (basename f) := by
  intro files
  induction files with
  | nil => exact ⟨rfl, rfl, rfl⟩
  | cons p rest ih =>
    obtain ⟨h1, h2, h3⟩ := ih
    by_cases hp : add_watermark (env p).pipeline
    · refine ⟨?_, ?_, ?_⟩ <;>
        simp [processLoop, hp, h1, h2, h3, List.filter_cons, Nat.add_comm]
    · refine ⟨?_, ?_, ?_⟩ <;>
        simp [processLoop, hp, h1, h2, h3, List.filter_cons]

/-- C7: a failing file is contained: `add_watermark` returns `False`
instead of letting the exception escape, the file contributes no output
and no success, and every file before and after it is still processed
exactly as it would be on its own. -/
theorem C7_per_file_failure_contained (env : String → FileEnv) (directory : String)
    (pre post : List String) (f : String)
    (hf : add_watermark (env f).pipeline = false) :
    (process_images env directory (pre ++ f :: post)).processed = pre ++ f :: post ∧
    (process_images env directory (pre ++ f :: post)).success_count =
      (process_images env directory pre).success_count +
        (process_images env directory post).success_count ∧
    (process_images env directory (pre ++ f :: post)).written =
      (process_images env directory pre).written ++
        (process_images env directory post).written := by
  obtain ⟨hp1, hp2, hp3⟩ := processLoop_spec env (joinPath directory "_watermark")
    (pre ++ f :: post)
  obtain ⟨ha1, ha2, ha3⟩ := processLoop_spec env (joinPath directory "_watermark") pre
  obtain ⟨hb1, hb2, hb3⟩ := processLoop_spec env (joinPath directory "_watermark") post
  refine ⟨hp1, ?_, ?_⟩
  · rw [process_images, hp2, process_images, ha2, process_images, hb2]
    simp [List.filter_append, List.filter_cons, hf]
  · rw [process_images, hp3, process_images, ha3, process_images, hb3]
    simp [List.filter_append, List.filter_cons, hf]

/-- Witness for C7: the middle file's pipeline raises, the other two are
still processed and written. -/
theorem C7_per_file_failure_contained_witness :
    (process_images
        (fun p => ⟨⟨ExifData.noData, none, fun _ => ⟨2020, 1, 2⟩, ⟨2021, 3, 4⟩⟩,
          if p = "b.jpg" then Except.error () else Except.ok ()⟩)
        "photos" (["a.jpg"] ++ "b.jpg" :: ["c.jpg"])).processed =
      ["a.jpg"] ++ "b.jpg" :: ["c.jpg"] ∧
    (process_images
        (fun p => ⟨⟨ExifData.noData, none, fun _ => ⟨2020, 1, 2⟩, ⟨2021, 3, 4⟩⟩,
          if p = "b.jpg" then Except.error () else Except.ok ()⟩)
        "photos" (["a.jpg"] ++ "b.jpg" :: ["c.jpg"])).success_count =
      (process_images
        (fun p => ⟨⟨ExifData.noData, none, fun _ => ⟨2020, 1, 2⟩, ⟨2021, 3, 4⟩⟩,
          if p = "b.jpg" then Except.error () else Except.ok ()⟩)
        "photos" ["a.jpg"]).success_count +
      (process_images
        (fun p => ⟨⟨ExifData.noData, none, fun _ => ⟨2020, 1, 2⟩, ⟨2021, 3, 4⟩⟩,
          if p = "b.jpg" then Except.error () else Except.ok ()⟩)
        "photos" ["c.jpg"]).success_count ∧
    (process_images
        (fun p => ⟨⟨ExifData.noData, none, fun _ => ⟨2020, 1, 2⟩, ⟨2021, 3, 4⟩⟩,
          if p = "b.jpg" then Except.error () else Except.ok ()⟩)
        "photos" (["a.jpg"] ++ "b.jpg" :: ["c.jpg"])).written =
      (process_images
        (fun p => ⟨⟨ExifData.noData, none, fun _ => ⟨2020, 1, 2⟩, ⟨2021, 3, 4⟩⟩,
          if p = "b.jpg" then Except.error () else Except.ok ()⟩)
        "photos" ["a.jpg"]).written ++
      (process_images
        (fun p => ⟨⟨ExifData.noData, none, fun _ => ⟨2020, 1, 2⟩, ⟨2021, 3, 4⟩⟩,
          if p = "b.jpg" then Except.error () else Except.ok ()⟩)
        "photos" ["c.jpg"]).written :=
  C7_per_file_failure_contained
    (fun p => ⟨⟨ExifData.noData, none, fun _ => ⟨2020, 1, 2⟩, ⟨2021, 3, 4⟩⟩,
      if p = "b.jpg" then Except.error () else Except.ok ()⟩)
    "photos" ["a.jpg"] ["c.jpg"] "b.jpg" (by decide)

/-- C8: every successfully processed input yields exactly one written
output, in the sibling subdirectory `directory/_watermark`, under the
input's own filename. -/
theorem C8_output_one_file_same_name (env : String → FileEnv) (directory : String)
    (files : List String) :
    (process_images env directory files).written =
      (files.filter fun f => add_watermark (env f).pipeline).map
        (fun f => joinPath (joinPath directory "_watermark") (basename f)) ∧
    ∀ f : String,
      basename (joinPath (joinPath directory "_watermark") (basename f)) =
        basename f :=
  ⟨(processLoop_spec env (joinPath directory "_watermark") files).2.2,
    fun f => basename_joinPath_basename (joinPath directory "_watermark") f⟩

end WatermarkTool
